import Mathlib

/-!
Verification development for the EOS actor runtime.

The definitions below are a shallow embedding of the Rust sources:

* `src/eos/src/common.rs`   — `Message`, `Props`, `Response`, `DEFAULT_TICK`
* `src/eos/src/system.rs`   — `Actor`, `System`, `Actor::run`, `System::tick`,
  `System::spawn_actor`, the spawn-queue drain loop
* `src/eos/src/main.rs`     — the `Pause` / `Unpause` / `SetTick` / `ResetTick`
  command handlers and the clap range check on `eos tick set`
* `src/src/file_overlay.rs` — `FsOverlay::{write_file, read_file, get_path_info,
  rwalk, rclunk, rfsync}` and the per-fid write buffer

External collaborators (the Rune VM, serde_json, the UTF-8 decoder, the nanoid
generator and the QID hash) are modelled as explicit function parameters
(`VmOracle`, `Serde`, `hash`): the embedded repository code is written out in
full against those parameters, mirroring the Rust control flow branch by branch.

Rust `&mut self` methods are embedded in state-passing style: a method that can
fail returns the error/result together with the state as mutated up to the
point of return, so partial mutations before an early `return Err` are kept.
-/

namespace Eos

/-- JSON values (the image of `serde_json::Value`). -/
inductive Json where
  | null
  | bool (b : Bool)
  | num (n : Int)
  | str (s : String)
  | arr (elems : List Json)
  | obj (fields : List (String × Json))

/-- `common::Message` with fields `from`, `to`, `payload` (`from` and `to` are
Lean keywords, hence the underscores). -/
structure Message where
  from_ : Option String
  to_ : String
  payload : Json

/-- `common::Props`: spawn request (script source text and optional id). -/
structure Props where
  script : String
  id : Option String

/-- `system::Actor`. Mailbox and send queue are FIFO: head = front. -/
structure Actor where
  id : String
  mailbox : List Message
  send_queue : List Message
  script : String
  state : Json
  paused : Bool

/-- `system::System`: `actors` is a `HashMap<String, Actor>` embedded as an
association list in the (implementation-defined but fixed) iteration order. -/
structure System where
  spawn_queue : List Props
  actors : List (String × Actor)
  paused : Bool

/-- `system::EosError`, restricted to the variants the embedded code produces
(other variants carry external error payloads, collapsed into strings). -/
inductive EosError where
  | idAlreadyExists (id : String)
  | vmError (msg : String)
  | buildError (msg : String)
deriving DecidableEq, Repr

/-- `common::Response` (the NATS reply). -/
inductive Response where
  | done
  | failed (err : String)
  | spawned (id : String)
  | actors (ids : List String)
deriving DecidableEq, Repr

/-- The shape of a `rune::Value` as far as `Actor::run` inspects it:
`from_value::<(Object, Object)>` succeeds exactly on a 2-tuple of objects and
`from_value::<Object>` exactly on an object; `obj o` carries the serde_json
image of the object. Everything else is `other`. -/
inductive RValue where
  | obj (o : Json)
  | tup (elems : List RValue)
  | other

/-- External Rune/serde operations used by `Actor::run`, `init` and
`spawn_actor`: `call s st p` is "make_vm for script `s`, then
`vm.call(["handle"], (st, p))`" (compile and runtime errors included);
`vmInit id s` is the whole of `init(id, s)` in `system.rs` (make_vm plus the
optional `init()` call, defaulting to an empty object); `nanoid` is the random
id generator. -/
structure VmOracle where
  call : String → Json → Json → Except EosError RValue
  vmInit : String → String → Except EosError Json
  nanoid : Props → String

/-- `from_value::<(Object, Object)>(&result)` in `Actor::run`. -/
def decodePairObj : RValue → Option (Json × Json)
  | .tup [.obj a, .obj b] => some (a, b)
  | _ => none

/-- `from_value::<Object>(&result)` in `Actor::run`. -/
def decodeObj : RValue → Option Json
  | .obj o => some o
  | _ => none

/-- `Actor::run` (`system.rs` lines 97-124), state-passing: returns the
`EosResult<Option<Message>>` and the actor as mutated. The spawn-queue
argument of the Rust function is unused there and dropped here. -/
def Actor.run (oracle : VmOracle) (a : Actor) (message : Message) :
    Except EosError (Option Message) × Actor :=
  match oracle.call a.script a.state message.payload with
  | .error e => (.error e, a)
  | .ok result =>
    match decodePairObj result with
    | some (state, response) =>
      match message.from_ with
      | some f => (.ok (some ⟨some message.to_, f, response⟩), { a with state := state })
      | none => (.ok none, { a with state := state })
    | none =>
      match decodeObj result with
      | some state => (.ok none, { a with state := state })
      | none => (.ok none, a)

/-- Result of processing one actor inside the tick loop: the propagated error
(if any), the actor as left behind, the messages pushed onto `actor_messages`
for this actor, and the number of `actor.run` (handler) invocations. -/
structure StepOut where
  err : Option EosError
  actor : Actor
  msgs : List Message
  calls : Nat

/-- One iteration of the actor loop in `System::tick` (lines 169-181):
skip paused actors, pop at most the head of `send_queue` into the routed list,
pop at most the head of `mailbox` and run the handler on it, collecting a
synthesized reply. On a handler error the `?` aborts, so the collected
messages are dropped by the caller. -/
def stepActor (oracle : VmOracle) (a : Actor) : StepOut :=
  if a.paused then ⟨none, a, [], 0⟩
  else
    let a1 : Actor := { a with send_queue := a.send_queue.drop 1 }
    match a.mailbox with
    | [] => ⟨none, a1, a.send_queue.take 1, 0⟩
    | message :: rest =>
      match Actor.run oracle { a1 with mailbox := rest } message with
      | (.error e, a2) => ⟨some e, a2, a.send_queue.take 1, 1⟩
      | (.ok resp, a2) => ⟨none, a2, a.send_queue.take 1 ++ resp.toList, 1⟩

/-- The whole actor loop of `System::tick`: processes the actors in iteration
order; a per-actor error aborts the loop (the already collected messages are
discarded, the remaining actors are left untouched). Also returns the
per-entry handler-invocation counts. -/
def tickActors (oracle : VmOracle) :
    List (String × Actor) →
      Option EosError × List (String × Actor) × List Message × List Nat
  | [] => (none, [], [], [])
  | (id, a) :: rest =>
    match stepActor oracle a with
    | ⟨some e, a1, _, c⟩ => (some e, (id, a1) :: rest, [], c :: rest.map fun _ => 0)
    | ⟨none, a1, ms, c⟩ =>
      let out := tickActors oracle rest
      (out.1, (id, a1) :: out.2.1, ms ++ out.2.2.1, c :: out.2.2.2)

/-- `self.actors.get_mut(&msg.to)` followed by `mailbox.push_back(msg)`:
append to the first entry with the matching key; no entry, no change
(the message is dropped). -/
def pushMailbox (m : Message) : List (String × Actor) → List (String × Actor)
  | [] => []
  | (id, a) :: rest =>
    if id = m.to_ then (id, { a with mailbox := a.mailbox ++ [m] }) :: rest
    else (id, a) :: pushMailbox m rest

/-- The routing loop of `System::tick` (lines 182-186). -/
def routeMsgs (actors : List (String × Actor)) (msgs : List Message) :
    List (String × Actor) :=
  msgs.foldl (fun acc m => pushMailbox m acc) actors

/-- `HashMap::contains_key`. -/
def containsKey (id : String) : List (String × Actor) → Bool
  | [] => false
  | (k, _) :: rest => k = id || containsKey id rest

/-- `HashMap::get` / `get_mut` lookup: first entry with the key. -/
def lookupFirst (id : String) : List (String × Actor) → Option Actor
  | [] => none
  | (k, a) :: rest => if k = id then some a else lookupFirst id rest

/-- `HashMap::insert` (also models in-place mutation after `get_mut`):
replace the first entry with the key, or append. -/
def insertActor (id : String) (a : Actor) : List (String × Actor) →
    List (String × Actor)
  | [] => [(id, a)]
  | (k, b) :: rest => if k = id then (k, a) :: rest else (k, b) :: insertActor id a rest

/-- `System::spawn_actor` (`system.rs` lines 149-158): choose the id, build the
actor via `Actor::new` (which evaluates `init`), fail with `IdAlreadyExists`
when the id is live, otherwise insert. -/
def spawnActor (oracle : VmOracle) (actors : List (String × Actor)) (p : Props) :
    Except EosError (String × List (String × Actor)) :=
  let id := p.id.getD (oracle.nanoid p)
  match oracle.vmInit id p.script with
  | .error e => .error e
  | .ok st =>
    let actor : Actor := ⟨id, [], [], p.script, st, false⟩
    if containsKey id actors then .error (.idAlreadyExists id)
    else .ok (id, insertActor id actor actors)

/-- The spawn-drain loop of `System::tick` (lines 164-166):
`while let Some(request) = self.spawn_queue.pop()` pops from the END of the
`Vec`, so the argument here is the reversed queue; a spawn error aborts the
tick, leaving the not-yet-popped front of the queue behind. -/
def drainLoop (oracle : VmOracle) :
    List Props → List (String × Actor) →
      Option EosError × List Props × List (String × Actor)
  | [], actors => (none, [], actors)
  | p :: rest, actors =>
    match spawnActor oracle actors p with
    | .error e => (some e, rest.reverse, actors)
    | .ok (_, actors1) => drainLoop oracle rest actors1

/-- `System::tick` (`system.rs` lines 160-189), state-passing: the returned
`Option EosError` is the `EosResult` (`none` = `Ok(())`), the returned system
is the state as mutated at the point of return. -/
def System.tick (oracle : VmOracle) (sys : System) : Option EosError × System :=
  if sys.paused then (none, sys)
  else
    match drainLoop oracle sys.spawn_queue.reverse sys.actors with
    | (some e, q1, actors1) => (some e, ⟨q1, actors1, sys.paused⟩)
    | (none, _, actors1) =>
      match tickActors oracle actors1 with
      | (some e, actors2, _, _) => (some e, ⟨[], actors2, sys.paused⟩)
      | (none, actors2, msgs, _) => (none, ⟨[], routeMsgs actors2 msgs, sys.paused⟩)

/-- The `Command::Pause` handler (`main.rs` lines 531-541):
`if let Some(id) = id && let Some(actor) = sys.actors.get_mut(&id)` sets that
actor's flag; EVERY other case — including a supplied id that is not live —
falls into the `else` and sets the system-wide flag. -/
def handlePause (sys : System) (id : Option String) : System × Response :=
  match id with
  | some i =>
    match lookupFirst i sys.actors with
    | some a => ({ sys with actors := insertActor i { a with paused := true } sys.actors }, .done)
    | none => ({ sys with paused := true }, .done)
  | none => ({ sys with paused := true }, .done)

/-- The `Command::Unpause` handler (`main.rs` lines 542-552), same shape with
`false`. -/
def handleUnpause (sys : System) (id : Option String) : System × Response :=
  match id with
  | some i =>
    match lookupFirst i sys.actors with
    | some a => ({ sys with actors := insertActor i { a with paused := false } sys.actors }, .done)
    | none => ({ sys with paused := false }, .done)
  | none => ({ sys with paused := false }, .done)

/-- `common::DEFAULT_TICK`. -/
def DEFAULT_TICK : Nat := 2000

/-- The server-side tick configuration (`struct Config { tick: u64 }`). -/
structure Config where
  tick : Nat
deriving DecidableEq, Repr

/-- The `Command::SetTick` handler (`main.rs` lines 569-573): unconditionally
stores the value and replies `Done`; no minimum is checked on the server. -/
def handleSetTick (_cfg : Config) (tick : Nat) : Config × Response :=
  (⟨tick⟩, .done)

/-- The `Command::ResetTick` handler (`main.rs` lines 574-578). -/
def handleResetTick (_cfg : Config) : Config × Response :=
  (⟨DEFAULT_TICK⟩, .done)

/-- The clap validator on the CLI argument of `eos tick set`
(`main.rs` lines 159-171): `value_parser!(u64).range(100..)` accepts exactly
the values that are at least 100 (and fit in a u64; the parse rejects larger
literals before the range check). -/
def tickSetInRange (ms : Nat) : Bool :=
  decide (100 ≤ ms) && decide (ms < 2 ^ 64)

/- ------------------------------------------------------------------ -/
/- Filesystem overlay (`src/src/file_overlay.rs`)                      -/
/- ------------------------------------------------------------------ -/

/-- 9P errno values produced by the overlay. -/
inductive Errno where
  | einval
  | enoent
  | erofs
  | eisdir
  | enotdir
deriving DecidableEq, Repr

/-- External byte/serde operations used by the overlay: `utf8` is
`std::str::from_utf8` (`none` on invalid UTF-8), `jsonParse` is
`serde_json::from_str::<Value>`, `msgListParse` is
`serde_json::from_str::<VecDeque<Message>>`, the `pretty*` functions are
`serde_json::to_string_pretty` on the respective types, and `strBytes` is
`String::into_bytes`. -/
structure Serde where
  utf8 : List Nat → Option String
  jsonParse : String → Option Json
  msgListParse : String → Option (List Message)
  prettyJson : Json → String
  prettyMsgs : List Message → String
  prettyProps : List Props → String
  strBytes : String → List Nat

/-- The literal prefix used throughout `file_overlay.rs`. -/
def actorsPre : String := "/actors/"

/-- Character-level core of `str::starts_with` (the built-in `startsWith`
works on byte positions and does not reduce inside the kernel; the paths here
are ASCII, so characters and bytes coincide). -/
def listStartsWith : List Char → List Char → Bool
  | _, [] => true
  | [], _ :: _ => false
  | c :: cs, p :: ps => c = p && listStartsWith cs ps

/-- `str::starts_with` on strings. -/
def strStartsWith (s pre : String) : Bool :=
  listStartsWith s.toList pre.toList

/-- Drop the first `n` characters of a string. -/
def strDrop (s : String) (n : Nat) : String :=
  String.mk (s.toList.drop n)

/-- Accumulator loop of splitting at every slash. -/
def splitSlashAux : List Char → List Char → List String
  | [], acc => [String.mk acc.reverse]
  | c :: cs, acc =>
    if c = '/' then String.mk acc.reverse :: splitSlashAux cs []
    else splitSlashAux cs (c :: acc)

/-- `str::split('/')` collected into a list (the empty string yields one empty
component, matching Rust). -/
def strSplitSlash (s : String) : List String :=
  splitSlashAux s.toList []

/-- Fuel-bounded core of `str::trim_start_matches(actorsPre)`: remove the
prefix repeatedly. -/
def trimARep : Nat → String → String
  | 0, s => s
  | n + 1, s =>
    if strStartsWith s actorsPre then trimARep n (strDrop s actorsPre.length) else s

/-- `path.trim_start_matches("/actors/")`. -/
def trimActors (s : String) : String := trimARep s.length s

/-- `bool::from_str` (Rust `str::parse::<bool>()`): exactly the two literal
strings parse. -/
def parseBoolStr (s : String) : Option Bool :=
  if s = "true" then some true else if s = "false" then some false else none

/-- `bool::to_string`. -/
def boolStr (b : Bool) : String := if b then "true" else "false"

/-- `FsOverlay::format_spawn_queue`. -/
def formatSpawnQueue (sd : Serde) (sys : System) : String :=
  sd.prettyProps sys.spawn_queue

/-- `FsOverlay::format_mailbox`. -/
def formatMailbox (sd : Serde) (a : Actor) : String :=
  sd.prettyMsgs a.mailbox

/-- `FsOverlay::write_file` (`file_overlay.rs` lines 955-1016), state-passing:
decode the buffer as UTF-8 (else `EINVAL`); under `/actors/` with at least two
path components, a missing actor id is `ENOENT`; for a live actor the branch
on the file name applies: `state` parses JSON (else `EINVAL`) and replaces the
state; `mailbox` replaces the mailbox only when the content parses as an array
of Messages, and reports success either way; `script` stores the text;
`paused` parses the trimmed content as a bool (else `EINVAL`); everything
else, including any path outside `/actors/`, is `EROFS`. -/
def write_file (sd : Serde) (sys : System) (path : String) (data : List Nat) :
    Except Errno Nat × System :=
  match sd.utf8 data with
  | none => (.error .einval, sys)
  | some content =>
    if strStartsWith path actorsPre then
      match strSplitSlash (trimActors path) with
      | actor_id :: file :: _ =>
        match lookupFirst actor_id sys.actors with
        | none => (.error .enoent, sys)
        | some actor =>
          match file with
          | "state" =>
            match sd.jsonParse content with
            | none => (.error .einval, sys)
            | some v =>
              (.ok data.length,
               { sys with actors := insertActor actor_id { actor with state := v } sys.actors })
          | "mailbox" =>
            match sd.msgListParse content with
            | some ms =>
              (.ok data.length,
               { sys with actors := insertActor actor_id { actor with mailbox := ms } sys.actors })
            | none => (.ok data.length, sys)
          | "script" =>
            (.ok data.length,
             { sys with actors := insertActor actor_id { actor with script := content } sys.actors })
          | "paused" =>
            match parseBoolStr content.trim with
            | none => (.error .einval, sys)
            | some b =>
              (.ok data.length,
               { sys with actors := insertActor actor_id { actor with paused := b } sys.actors })
          | _ => (.error .erofs, sys)
      | _ => (.error .erofs, sys)
    else (.error .erofs, sys)

/-- `FsOverlay::read_file` (`file_overlay.rs` lines 916-946). -/
def read_file (sd : Serde) (sys : System) (path : String) : List Nat :=
  if path = "/spawn_queue" then sd.strBytes (formatSpawnQueue sd sys)
  else if strStartsWith path actorsPre then
    match strSplitSlash (trimActors path) with
    | actor_id :: file :: _ =>
      match lookupFirst actor_id sys.actors with
      | some actor =>
        match file with
        | "mailbox" => sd.strBytes (formatMailbox sd actor)
        | "script" => sd.strBytes actor.script
        | "state" => sd.strBytes (sd.prettyJson actor.state)
        | "paused" => sd.strBytes (boolStr actor.paused)
        | _ => []
      | none => []
    | _ => []
  else []

/-- `FsOverlay::get_path_info` (`file_overlay.rs` lines 733-785):
`(exists, is_directory, size)`. -/
def get_path_info (sd : Serde) (sys : System) (path : String) :
    Bool × Bool × Nat :=
  if path = "/" ∨ path = "" then (true, true, 0)
  else if path = "/actors" then (true, true, 0)
  else if path = "/spawn_queue" then (true, false, (formatSpawnQueue sd sys).utf8ByteSize)
  else if strStartsWith path actorsPre then
    match strSplitSlash (trimActors path) with
    | [] => (false, false, 0)
    | actor_id :: rest =>
      if actor_id = "" then (false, false, 0)
      else if !containsKey actor_id sys.actors then (false, false, 0)
      else
        match rest with
        | [] => (true, true, 0)
        | file :: _ =>
          match lookupFirst actor_id sys.actors with
          | some actor =>
            match file with
            | "mailbox" => (true, false, (formatMailbox sd actor).utf8ByteSize)
            | "script" => (true, false, actor.script.utf8ByteSize)
            | "state" => (true, false, (sd.prettyJson actor.state).utf8ByteSize)
            | "paused" => (true, false, (boolStr actor.paused).utf8ByteSize)
            | _ => (false, false, 0)
          | none => (false, false, 0)
  else (false, false, 0)

/-- Per-fid data (`MyFId`): virtual path, directory flag, write buffer. -/
structure FidState where
  path : String
  isDir : Bool
  writeBuffer : Option (List Nat)

/-- A QID as built by the overlay: type (directory?), version (always 1) and
the hashed path. -/
structure QIdM where
  isDir : Bool
  version : Nat
  qpath : Nat
deriving DecidableEq, Repr

/-- `path.rsplitn(2, '/').nth(1).unwrap_or("/")` followed by the
empty-to-root fixup in `rwalk`: the prefix of `p` before its last slash, `/`
when that prefix is empty or there is no slash. -/
def parentOf (p : String) : String :=
  let cs := p.toList
  if cs.contains '/' then
    let before := ((cs.reverse.dropWhile fun c => c ≠ '/').drop 1).reverse
    if before = [] then "/" else String.mk before
  else "/"

/-- One path mutation of the `rwalk` loop: `..` goes to the parent (staying at
`/`), anything else is appended. -/
def walkStep (w : String) (path : String) : String :=
  if w = ".." then (if path = "/" then path else parentOf path)
  else if path = "/" then "/" ++ w
  else path ++ "/" ++ w

/-- The name loop of `FsOverlay::rwalk` (lines 370-401): mutate the path,
stop (with the already-mutated, possibly nonexistent path) when an element
does not exist, otherwise record the QID of the resolved path. Returns the
final `path`, `final_is_dir` and `wqids`. -/
def walkLoop (sd : Serde) (hash : String → Nat) (sys : System) :
    List String → String → Bool → List QIdM → String × Bool × List QIdM
  | [], path, fdir, acc => (path, fdir, acc)
  | w :: rest, path, fdir, acc =>
    let path1 := walkStep w path
    let info := get_path_info sd sys path1
    if info.1 then
      walkLoop sd hash sys rest path1 info.2.1 (acc ++ [⟨info.2.1, 1, hash path1⟩])
    else (path1, fdir, acc)

/-- `FsOverlay::rwalk` (`file_overlay.rs` lines 340-421): returns the state of
`newfid` and the returned `wqids`. `hash` is `path_to_qid` (a stable hash of
the path string, `DefaultHasher` in the source). An empty name list clones the
fid. After the loop, `newfid` is set to the final (mutated) path when at least
one QID was produced, and kept at the starting point otherwise. -/
def rwalk (sd : Serde) (hash : String → Nat) (sys : System) (fid : FidState)
    (wnames : List String) : FidState × List QIdM :=
  let current_path := if fid.path = "" then "/" else fid.path
  let current_is_dir := fid.isDir
  if wnames.isEmpty then (⟨current_path, current_is_dir, none⟩, [])
  else
    let out := walkLoop sd hash sys wnames current_path current_is_dir []
    if out.2.2.isEmpty then (⟨current_path, current_is_dir, none⟩, out.2.2)
    else (⟨out.1, out.2.1, none⟩, out.2.2)

/-- `FsOverlay::rclunk` (`file_overlay.rs` lines 325-338): take the buffer (so
it is discarded in every case), commit it via `write_file` with the result
ignored (`let _ = ...`), and reply `RClunk` unconditionally. -/
def rclunk (sd : Serde) (sys : System) (fid : FidState) : System × FidState :=
  match fid.writeBuffer with
  | none => (sys, fid)
  | some buf => ((write_file sd sys fid.path buf).2, { fid with writeBuffer := none })

/-- `FsOverlay::rfsync` (`file_overlay.rs` lines 531-546): take the buffer,
commit it, and propagate a commit error (`?`); the buffer is discarded even
when the commit fails because `take()` runs first. -/
def rfsync (sd : Serde) (sys : System) (fid : FidState) :
    Option Errno × System × FidState :=
  match fid.writeBuffer with
  | none => (none, sys, fid)
  | some buf =>
    match write_file sd sys fid.path buf with
    | (.error e, sys1) => (some e, sys1, { fid with writeBuffer := none })
    | (.ok _, sys1) => (none, sys1, { fid with writeBuffer := none })

/- ------------------------------------------------------------------ -/
/- Helper notions used by the statements                               -/
/- ------------------------------------------------------------------ -/

/-- The keys of the actor table, in iteration order. A `HashMap` has no
duplicate keys, so reachable tables satisfy `(keysOf actors).Nodup`. -/
def keysOf (l : List (String × Actor)) : List String := l.map Prod.fst

/-- The sublist of messages addressed to `id`, in order. -/
def msgsTo (id : String) : List Message → List Message
  | [] => []
  | m :: ms => if id = m.to_ then m :: msgsTo id ms else msgsTo id ms

/- ------------------------------------------------------------------ -/
/- Concrete instances for counterexamples and witnesses               -/
/- ------------------------------------------------------------------ -/

/-- An oracle for a script whose `handle` always fails at runtime (a VM error
is also what a script that fails to compile produces). -/
def oracleFail : VmOracle :=
  ⟨fun _ _ _ => .error (.vmError "boom"), fun _ _ => .ok (Json.obj []), fun _ => "n1"⟩

/-- An oracle for a script whose `handle` returns a plain (non-object,
non-pair) value, e.g. an integer. -/
def oracleOther : VmOracle :=
  ⟨fun _ _ _ => .ok .other, fun _ _ => .ok (Json.obj []), fun _ => "n1"⟩

/-- A message from outside the system addressed to actor `a`. -/
def msgA : Message := ⟨none, "a", Json.null⟩

/-- A handler-produced message from `a` back to `a`. -/
def msgAA : Message := ⟨some "a", "a", Json.bool true⟩

/-- A live actor with one pending inbound message. -/
def actorC1 : Actor := ⟨"a", [msgA], [], "scr", Json.obj [], false⟩

/-- `actorC1` after its message has been consumed by a failing handler. -/
def actorC1' : Actor := ⟨"a", [], [], "scr", Json.obj [], false⟩

/-- A system with the single actor `a` holding one inbound message. -/
def sysC1 : System := ⟨[], [("a", actorC1)], false⟩

/-- An idle live actor. -/
def actorA : Actor := ⟨"a", [], [], "scr", Json.null, false⟩

/-- A system with the single idle actor `a`. -/
def sysA : System := ⟨[], [("a", actorA)], false⟩

/-- An actor whose send queue holds two handler-produced messages. -/
def actorC2 : Actor := ⟨"a", [], [msgAA, msgAA], "scr", Json.null, false⟩

/-- A system with the single actor `a` whose send queue has depth two. -/
def sysC2 : System := ⟨[], [("a", actorC2)], false⟩

/-- An actor with one pending message in its mailbox. -/
def actorMb : Actor := ⟨"a", [msgA], [], "scr", Json.null, false⟩

/-- A system with the single actor `a` holding a one-message mailbox. -/
def sysMb : System := ⟨[], [("a", actorMb)], false⟩

/-- Serde instance recording the behaviour of the real decoders on the byte
strings used below: byte 98 is the letter `b`, and the one-character string
`b` is not JSON (so it parses neither as a value nor as a message array);
bytes 91, 93 spell the two-character string of an empty JSON array, which
parses as the empty message list (and as an empty `Json.arr`). -/
def sdC5 : Serde :=
  ⟨fun b => if b = [91, 93] then some "[]" else if b = [98] then some "b" else none,
   fun s => if s = "[]" then some (Json.arr []) else none,
   fun s => if s = "[]" then some ([] : List Message) else none,
   fun _ => "", fun _ => "", fun _ => "", fun _ => []⟩

/-- Serde instance recording that byte 255 never occurs in valid UTF-8. -/
def sdC7 : Serde :=
  ⟨fun b => if 255 ∈ b then none else some "", fun _ => none, fun _ => none,
   fun _ => "", fun _ => "", fun _ => "", fun _ => []⟩

/-- Serde instance recording the real decoders on the four bytes spelling
`null`: they decode to the string `null`, which parses as the JSON null value
and pretty-prints back to the same four bytes. -/
def sdC8 : Serde :=
  ⟨fun b => if b = [110, 117, 108, 108] then some "null" else none,
   fun s => if s = "null" then some Json.null else none,
   fun _ => none,
   fun v => match v with | .null => "null" | _ => "?",
   fun _ => "", fun _ => "",
   fun s => if s = "null" then [110, 117, 108, 108] else []⟩

/-- A trivial serde instance: `rwalk` consults it only for file sizes, which
do not influence the walk. -/
def sdTriv : Serde :=
  ⟨fun _ => none, fun _ => none, fun _ => none, fun _ => "", fun _ => "",
   fun _ => "", fun _ => []⟩

/-- A concrete stand-in for the stable path hash (`DefaultHasher`); `rwalk`
only ever applies it, so any function exercises the same control flow. -/
def hashC6 : String → Nat := String.length

/-- The fid produced by attaching at the root. -/
def rootFid : FidState := ⟨"/", true, none⟩

/-- `sysC2` after one tick: the head of the send queue has been routed back
into the mailbox, the second send-queue element survived the tick. -/
def sysC2' : System :=
  ⟨[], [("a", ⟨"a", [msgAA], [msgAA], "scr", Json.null, false⟩)], false⟩

/- ------------------------------------------------------------------ -/
/- Lemmas about `Actor.run` and `stepActor`                            -/
/- ------------------------------------------------------------------ -/

/-- `Actor::run` only ever rewrites the `state` field of the actor. -/
theorem Actor.run_actor_eq (oracle : VmOracle) (a : Actor) (m : Message) :
    ∃ st, (Actor.run oracle a m).2 = { a with state := st } := by
  cases h : oracle.call a.script a.state m.payload with
  | error e => exact ⟨a.state, by simp [Actor.run, h]⟩
  | ok r =>
    cases hp : decodePairObj r with
    | some p =>
      obtain ⟨s, t⟩ := p
      cases hm : m.from_ <;> exact ⟨s, by simp [Actor.run, h, hp, hm]⟩
    | none =>
      cases ho : decodeObj r with
      | some s => exact ⟨s, by simp [Actor.run, h, hp, ho]⟩
      | none => exact ⟨a.state, by simp [Actor.run, h, hp, ho]⟩

/-- On an error result `Actor::run` has not touched the actor. -/
theorem Actor.run_err (oracle : VmOracle) (a : Actor) (m : Message) (e : EosError)
    (h : (Actor.run oracle a m).1 = .error e) : (Actor.run oracle a m).2 = a := by
  cases hc : oracle.call a.script a.state m.payload with
  | error e1 => simp [Actor.run, hc]
  | ok r =>
    exfalso
    cases hp : decodePairObj r with
    | some p =>
      obtain ⟨s, t⟩ := p
      cases hm : m.from_ <;> simp [Actor.run, hc, hp, hm] at h
    | none =>
      cases ho : decodeObj r with
      | some s => simp [Actor.run, hc, hp, ho] at h
      | none => simp [Actor.run, hc, hp, ho] at h

/-- Exhaustive case description of one tick-loop iteration for one actor. -/
theorem stepActor_cases (oracle : VmOracle) (a : Actor) :
    (a.paused = true ∧ stepActor oracle a = ⟨none, a, [], 0⟩) ∨
    (a.paused = false ∧ a.mailbox = [] ∧
      stepActor oracle a =
        ⟨none, { a with send_queue := a.send_queue.drop 1 }, a.send_queue.take 1, 0⟩) ∨
    (∃ message rest,
      a.paused = false ∧ a.mailbox = message :: rest ∧
      ((∃ e,
          (Actor.run oracle { a with mailbox := rest, send_queue := a.send_queue.drop 1 } message).1
            = .error e ∧
          stepActor oracle a =
            ⟨some e,
             (Actor.run oracle { a with mailbox := rest, send_queue := a.send_queue.drop 1 } message).2,
             a.send_queue.take 1, 1⟩) ∨
       (∃ resp,
          (Actor.run oracle { a with mailbox := rest, send_queue := a.send_queue.drop 1 } message).1
            = .ok resp ∧
          stepActor oracle a =
            ⟨none,
             (Actor.run oracle { a with mailbox := rest, send_queue := a.send_queue.drop 1 } message).2,
             a.send_queue.take 1 ++ resp.toList, 1⟩))) := by
  cases hp : a.paused with
  | true => exact Or.inl ⟨rfl, by simp [stepActor, hp]⟩
  | false =>
    cases hm : a.mailbox with
    | nil =>
      refine Or.inr (Or.inl ⟨rfl, rfl, ?_⟩)
      simp [stepActor, hp, hm]
    | cons message rest =>
      refine Or.inr (Or.inr ⟨message, rest, rfl, rfl, ?_⟩)
      rcases hr :
          Actor.run oracle
            { a with mailbox := rest, send_queue := a.send_queue.drop 1, paused := false } message
        with ⟨res, a2⟩
      rw [List.drop_one] at hr
      cases res with
      | error e =>
        exact Or.inl ⟨e, rfl, by simp [stepActor, hp, hm, hr]⟩
      | ok resp =>
        exact Or.inr ⟨resp, rfl, by simp [stepActor, hp, hm, hr]⟩

/-- A paused actor is skipped entirely by the tick loop. -/
theorem stepActor_paused (oracle : VmOracle) (a : Actor) (h : a.paused = true) :
    stepActor oracle a = ⟨none, a, [], 0⟩ := by
  simp [stepActor, h]

/-- Field facts of one tick-loop iteration: identity and script are kept, at
most the head of the send queue and of the mailbox are removed, the handler
runs at most once. -/
theorem stepActor_fields (oracle : VmOracle) (a : Actor) :
    (stepActor oracle a).actor.id = a.id ∧
    (stepActor oracle a).actor.script = a.script ∧
    (stepActor oracle a).actor.paused = a.paused ∧
    (stepActor oracle a).actor.send_queue
      = (if a.paused then a.send_queue else a.send_queue.drop 1) ∧
    ((stepActor oracle a).actor.mailbox = a.mailbox ∨
      (stepActor oracle a).actor.mailbox = a.mailbox.drop 1) ∧
    (stepActor oracle a).calls ≤ 1 := by
  rcases stepActor_cases oracle a with ⟨hp, hs⟩ | ⟨hp, hm, hs⟩ |
    ⟨message, rest, hp, hm, hcase⟩
  · rw [hs]; simp [hp]
  · rw [hs]; simp [hp]
  · have hact := Actor.run_actor_eq oracle
      { a with mailbox := rest, send_queue := a.send_queue.drop 1 } message
    obtain ⟨st, hact⟩ := hact
    rcases hcase with ⟨e, hr, hs⟩ | ⟨resp, hr, hs⟩ <;>
      (rw [hs, hact]; simp [hp, hm])

/-- The handler is never invoked for a paused actor. -/
theorem stepActor_calls_paused (oracle : VmOracle) (a : Actor)
    (h : a.paused = true) : (stepActor oracle a).calls = 0 := by
  rw [stepActor_paused oracle a h]

/-- On a per-actor error, the actor's state is untouched and only the heads of
its mailbox and send queue have been consumed; in particular the actor is not
paused (it was being processed). -/
theorem stepActor_err_facts (oracle : VmOracle) (a : Actor) (e : EosError)
    (h : (stepActor oracle a).err = some e) :
    a.paused = false ∧
    (stepActor oracle a).actor.state = a.state ∧
    (stepActor oracle a).actor.mailbox = a.mailbox.drop 1 ∧
    (stepActor oracle a).actor.send_queue = a.send_queue.drop 1 := by
  rcases stepActor_cases oracle a with ⟨hp, hs⟩ | ⟨hp, hm, hs⟩ |
    ⟨message, rest, hp, hm, hcase⟩
  · rw [hs] at h; simp at h
  · rw [hs] at h; simp at h
  · rcases hcase with ⟨e1, hr, hs⟩ | ⟨resp, hr, hs⟩
    · have hact := Actor.run_err oracle
        { a with mailbox := rest, send_queue := a.send_queue.drop 1 } message e1 hr
      rw [hs, hact]
      simp [hp, hm]
    · rw [hs] at h; simp at h

/-- Successful tick loop: every actor was stepped, in place; the returned
invocation counts are the per-actor counts, and no step produced an error. -/
theorem tickActors_ok (oracle : VmOracle) :
    ∀ (l l' : List (String × Actor)) (ms : List Message) (cs : List Nat),
      tickActors oracle l = (none, l', ms, cs) →
      l' = l.map (fun p => (p.1, (stepActor oracle p.2).actor)) ∧
      cs = l.map (fun p => (stepActor oracle p.2).calls) ∧
      ∀ p ∈ l, (stepActor oracle p.2).err = none := by
  intro l
  induction l with
  | nil =>
    intro l' ms cs h
    simp [tickActors] at h
    simp [h.1, h.2.2]
  | cons hd tl ih =>
    obtain ⟨id, a⟩ := hd
    intro l' ms cs h
    rcases hsd : stepActor oracle a with ⟨err, a1, ms1, c⟩
    cases err with
    | some e =>
      simp only [tickActors, hsd] at h
      simp [Prod.mk.injEq] at h
    | none =>
      rcases ho : tickActors oracle tl with ⟨r2, l2, ms2, cs2⟩
      simp only [tickActors, hsd, ho] at h
      obtain ⟨h1, h2, h3, h4⟩ := by simpa [Prod.mk.injEq] using h
      subst h1
      obtain ⟨ihl, ihc, ihe⟩ := ih l2 ms2 cs2 ho
      refine ⟨?_, ?_, ?_⟩
      · rw [← h2, ihl]; simp [hsd]
      · rw [← h4, ihc]; simp [hsd]
      · intro p hp
        rcases List.mem_cons.mp hp with hph | hpt
        · rw [hph]; simp [hsd]
        · exact ihe p hpt

/-- The tick loop preserves the key sequence of the actor table. -/
theorem tickActors_keys (oracle : VmOracle) :
    ∀ l : List (String × Actor), keysOf ((tickActors oracle l).2.1) = keysOf l := by
  intro l
  induction l with
  | nil => rfl
  | cons hd tl ih =>
    obtain ⟨id, a⟩ := hd
    rcases hsd : stepActor oracle a with ⟨err, a1, ms1, c⟩
    cases err with
    | some e => simp [tickActors, hsd, keysOf]
    | none =>
      rcases ho : tickActors oracle tl with ⟨r2, l2, ms2, cs2⟩
      rw [ho] at ih
      simp only [tickActors, hsd, ho]
      simp [keysOf] at ih ⊢
      exact ih

/-- Whatever the tick loop returns, each actor of the table reappears under
its key either stepped once or untouched. -/
theorem tickActors_lookup (oracle : VmOracle) :
    ∀ (l : List (String × Actor)) (id : String) (a : Actor),
      lookupFirst id l = some a →
      ∃ a', lookupFirst id ((tickActors oracle l).2.1) = some a' ∧
        (a' = (stepActor oracle a).actor ∨ a' = a) := by
  intro l
  induction l with
  | nil => intro id a h; simp [lookupFirst] at h
  | cons hd tl ih =>
    obtain ⟨k, b⟩ := hd
    intro id a h
    rcases hsd : stepActor oracle b with ⟨err, b1, ms1, c⟩
    by_cases hk : k = id
    · rw [lookupFirst, if_pos hk] at h
      obtain rfl : b = a := by exact Option.some.inj h
      cases err with
      | some e =>
        refine ⟨b1, ?_, Or.inl (by rw [hsd])⟩
        simp [tickActors, hsd, lookupFirst, hk]
      | none =>
        refine ⟨b1, ?_, Or.inl (by rw [hsd])⟩
        rcases ho : tickActors oracle tl with ⟨r2, l2, ms2, cs2⟩
        simp [tickActors, hsd, ho, lookupFirst, hk]
    · rw [lookupFirst, if_neg hk] at h
      cases err with
      | some e =>
        refine ⟨a, ?_, Or.inr rfl⟩
        simp [tickActors, hsd, lookupFirst, hk, h]
      | none =>
        obtain ⟨a', ha', hcase⟩ := ih id a h
        refine ⟨a', ?_, hcase⟩
        rcases ho : tickActors oracle tl with ⟨r2, l2, ms2, cs2⟩
        rw [ho] at ha'
        simp [tickActors, hsd, ho, lookupFirst, hk]
        simpa using ha'

/-- On an aborted tick loop the table decomposes into the successfully stepped
prefix, the failing actor (stepped, with the error), and the untouched
suffix. -/
theorem tickActors_err (oracle : VmOracle) :
    ∀ (l l' : List (String × Actor)) (e : EosError) (ms : List Message)
      (cs : List Nat),
      tickActors oracle l = (some e, l', ms, cs) →
      ∃ l1 p l2,
        l = l1 ++ p :: l2 ∧
        (∀ q ∈ l1, (stepActor oracle q.2).err = none) ∧
        (stepActor oracle p.2).err = some e ∧
        l' = l1.map (fun q => (q.1, (stepActor oracle q.2).actor))
              ++ (p.1, (stepActor oracle p.2).actor) :: l2 := by
  intro l
  induction l with
  | nil => intro l' e ms cs h; simp [tickActors] at h
  | cons hd tl ih =>
    obtain ⟨id, a⟩ := hd
    intro l' e ms cs h
    rcases hsd : stepActor oracle a with ⟨err, a1, ms1, c⟩
    cases err with
    | some e1 =>
      simp only [tickActors, hsd] at h
      obtain ⟨h1, h2, h3, h4⟩ := by simpa [Prod.mk.injEq] using h
      refine ⟨[], (id, a), tl, by simp, by simp, by simp [hsd, h1], ?_⟩
      rw [← h2]
      simp [hsd]
    | none =>
      rcases ho : tickActors oracle tl with ⟨r2, l2, ms2, cs2⟩
      simp only [tickActors, hsd, ho] at h
      obtain ⟨h1, h2, h3, h4⟩ := by simpa [Prod.mk.injEq] using h
      subst h1
      obtain ⟨l1, p, l3, hdec, hpre, herr, hres⟩ := ih l2 e ms2 cs2 ho
      refine ⟨(id, a) :: l1, p, l3, by simp [hdec], ?_, herr, ?_⟩
      · intro q hq
        rcases List.mem_cons.mp hq with hqh | hqt
        · rw [hqh]; simp [hsd]
        · exact hpre q hqt
      · rw [← h2, hres]
        simp [hsd]

/-- First-match lookup is unaffected by appending entries on the right. -/
theorem lookupFirst_append_left :
    ∀ (l l2 : List (String × Actor)) (id : String) (a : Actor),
      lookupFirst id l = some a → lookupFirst id (l ++ l2) = some a := by
  intro l l2 id a h
  induction l with
  | nil => simp [lookupFirst] at h
  | cons hd tl ih =>
    obtain ⟨k, b⟩ := hd
    by_cases hk : k = id
    · rw [lookupFirst, if_pos hk] at h
      simpa [lookupFirst, hk] using h
    · rw [lookupFirst, if_neg hk] at h
      simpa [lookupFirst, hk] using ih h

/-- Lookup through a key-preserving map of the table. -/
theorem lookupFirst_map_keyed (f : String → Actor → Actor) :
    ∀ (l : List (String × Actor)) (id : String),
      lookupFirst id (l.map (fun p => (p.1, f p.1 p.2)))
        = (lookupFirst id l).map (f id) := by
  intro l id
  induction l with
  | nil => rfl
  | cons hd tl ih =>
    obtain ⟨k, b⟩ := hd
    by_cases hk : k = id
    · subst hk; simp [lookupFirst]
    · simp [lookupFirst, hk, ih]

/-- `contains_key` agrees with membership in the key sequence. -/
theorem containsKey_eq_mem (id : String) :
    ∀ l : List (String × Actor), containsKey id l = true ↔ id ∈ keysOf l := by
  intro l
  induction l with
  | nil => simp [containsKey, keysOf]
  | cons hd tl ih =>
    obtain ⟨k, b⟩ := hd
    simp [containsKey, keysOf, ih]
    constructor
    · rintro (h | h)
      · exact Or.inl h.symm
      · exact Or.inr (by simpa [keysOf] using h)
    · rintro (h | h)
      · exact Or.inl h.symm
      · exact Or.inr (by simpa [keysOf] using h)

/-- Routing a message leaves the key sequence unchanged. -/
theorem pushMailbox_keys (m : Message) :
    ∀ l, keysOf (pushMailbox m l) = keysOf l := by
  intro l
  induction l with
  | nil => rfl
  | cons hd tl ih =>
    obtain ⟨k, b⟩ := hd
    by_cases hk : k = m.to_
    · simp [pushMailbox, hk, keysOf]
    · simp [pushMailbox, hk, keysOf]
      simpa [keysOf] using ih

/-- Appending nothing to every mailbox is the identity on the table. -/
theorem map_mailbox_nil :
    ∀ l : List (String × Actor),
      l.map (fun p => ((p.1, { p.2 with mailbox := p.2.mailbox ++ ([] : List Message) })
        : String × Actor)) = l := by
  intro l
  induction l with
  | nil => rfl
  | cons hd tl ih => simp [ih]

/-- When no key matches the recipient, the conditional-append map is the
identity. -/
theorem map_push_id (m : Message) :
    ∀ l : List (String × Actor), (∀ p ∈ l, p.1 ≠ m.to_) →
      l.map (fun p =>
          ((p.1, { p.2 with mailbox := p.2.mailbox ++ if p.1 = m.to_ then [m] else [] })
            : String × Actor)) = l := by
  intro l
  induction l with
  | nil => intro h; rfl
  | cons hd tl ih =>
    intro h
    obtain ⟨k, b⟩ := hd
    have hk : k ≠ m.to_ := h (k, b) (by simp)
    have ht := ih fun p hp => h p (List.mem_cons_of_mem _ hp)
    simp [hk, ht]

/-- With distinct keys, routing one message appends it to exactly the matching
entries (at most one). -/
theorem pushMailbox_map (m : Message) :
    ∀ l : List (String × Actor), (keysOf l).Nodup →
      pushMailbox m l = l.map (fun p =>
        ((p.1, { p.2 with mailbox := p.2.mailbox ++ if p.1 = m.to_ then [m] else [] })
          : String × Actor)) := by
  intro l
  induction l with
  | nil => intro h; rfl
  | cons hd tl ih =>
    intro h
    obtain ⟨k, b⟩ := hd
    rw [keysOf] at h
    simp only [List.map_cons] at h
    obtain ⟨hknot, hnd⟩ := List.nodup_cons.mp h
    by_cases hk : k = m.to_
    · rw [pushMailbox, if_pos hk]
      have hne : ∀ p ∈ tl, p.1 ≠ m.to_ := by
        intro p hp hcon
        exact hknot (by
          rw [hk, ← hcon]
          exact List.mem_map_of_mem Prod.fst hp)
      simp [hk, map_push_id m tl hne]
    · rw [pushMailbox, if_neg hk]
      have := ih hnd
      simp [hk, this]

/-- Entry-wise description of the routing loop over a table with distinct
keys: each actor receives, in order, exactly the routed messages addressed to
its id, appended to its mailbox; nothing else changes. -/
theorem routeMsgs_map :
    ∀ (ms : List Message) (l : List (String × Actor)), (keysOf l).Nodup →
      routeMsgs l ms = l.map (fun p =>
        ((p.1, { p.2 with mailbox := p.2.mailbox ++ msgsTo p.1 ms })
          : String × Actor)) := by
  intro ms
  induction ms with
  | nil =>
    intro l h
    simp only [routeMsgs, List.foldl_nil, msgsTo]
    exact (map_mailbox_nil l).symm
  | cons m ms ih =>
    intro l h
    have h1 : routeMsgs l (m :: ms) = routeMsgs (pushMailbox m l) ms := rfl
    have h2 : (keysOf (pushMailbox m l)).Nodup := by rw [pushMailbox_keys]; exact h
    rw [h1, ih (pushMailbox m l) h2, pushMailbox_map m l h, List.map_map]
    refine List.map_congr_left ?_
    intro p _
    simp only [Function.comp]
    rw [List.append_assoc]
    have : msgsTo p.1 (m :: ms) = (if p.1 = m.to_ then [m] else []) ++ msgsTo p.1 ms := by
      by_cases hp : p.1 = m.to_ <;> simp [msgsTo, hp]
    rw [this]

/-- A fresh insert appends at the end of the table. -/
theorem insertActor_append (id : String) (a : Actor) :
    ∀ l, containsKey id l = false → insertActor id a l = l ++ [(id, a)] := by
  intro l
  induction l with
  | nil => intro h; rfl
  | cons hd tl ih =>
    intro h
    obtain ⟨k, b⟩ := hd
    rw [containsKey] at h
    simp only [Bool.or_eq_false_iff, decide_eq_false_iff_not] at h
    rw [insertActor, if_neg h.1, ih h.2]
    rfl

/-- A successful spawn appends a fresh actor (empty mailbox and send queue,
not paused) whose id was not yet live. -/
theorem spawnActor_ok (oracle : VmOracle) (actors : List (String × Actor))
    (p : Props) (id1 : String) (l1 : List (String × Actor))
    (h : spawnActor oracle actors p = .ok (id1, l1)) :
    ∃ st, l1 = actors ++ [(id1, ⟨id1, [], [], p.script, st, false⟩)] ∧
      containsKey id1 actors = false := by
  simp only [spawnActor] at h
  cases hi : oracle.vmInit (p.id.getD (oracle.nanoid p)) p.script with
  | error e => rw [hi] at h; simp at h
  | ok st =>
    rw [hi] at h
    by_cases hc : containsKey (p.id.getD (oracle.nanoid p)) actors
    · simp [hc] at h
    · have hc' : containsKey (p.id.getD (oracle.nanoid p)) actors = false := by
        simpa using hc
      simp only [hc', Bool.false_eq_true, if_false, Except.ok.injEq,
        Prod.mk.injEq] at h
      obtain ⟨hid, hl⟩ := h
      subst hid
      exact ⟨st, by rw [← hl, insertActor_append _ _ _ hc'], hc'⟩

/-- The spawn drain only appends fresh entries to the table and preserves
distinctness of the keys (in both the success and the abort case). -/
theorem drainLoop_spec (oracle : VmOracle) :
    ∀ (q : List Props) (l : List (String × Actor)),
      ∃ news, (drainLoop oracle q l).2.2 = l ++ news ∧
        ((keysOf l).Nodup → (keysOf ((drainLoop oracle q l).2.2)).Nodup) := by
  intro q
  induction q with
  | nil =>
    intro l
    exact ⟨[], by simp [drainLoop], fun h => by simpa [drainLoop] using h⟩
  | cons p rest ih =>
    intro l
    rcases hs : spawnActor oracle l p with e | pr
    · exact ⟨[], by simp [drainLoop, hs], fun h => by simpa [drainLoop, hs] using h⟩
    · obtain ⟨id1, l1⟩ := pr
      obtain ⟨st, hl1, hck⟩ := spawnActor_ok oracle l p id1 l1 hs
      obtain ⟨news, hn, hnd⟩ := ih l1
      refine ⟨(id1, ⟨id1, [], [], p.script, st, false⟩) :: news, ?_, ?_⟩
      · simp only [drainLoop, hs]
        rw [hn, hl1, List.append_assoc]
        rfl
      · intro h
        have hmem : id1 ∉ keysOf l := by
          intro hmem
          rw [← containsKey_eq_mem] at hmem
          rw [hck] at hmem
          exact Bool.false_ne_true hmem
        have h1 : (keysOf l1).Nodup := by
          rw [hl1, keysOf, List.map_append]
          refine List.Nodup.append h (by simp) ?_
          intro x hx hx2
          simp at hx2
          rw [hx2] at hx
          exact hmem hx
        simpa only [drainLoop, hs] using hnd h1

/-- Looking up a key right after inserting under it yields the inserted
actor. -/
theorem lookupFirst_insertActor_self (id : String) (b : Actor) :
    ∀ l, lookupFirst id (insertActor id b l) = some b := by
  intro l
  induction l with
  | nil => simp [insertActor, lookupFirst]
  | cons hd tl ih =>
    obtain ⟨k, c⟩ := hd
    by_cases hk : k = id
    · simp [insertActor, hk, lookupFirst]
    · simp [insertActor, hk, lookupFirst, ih]

/- ------------------------------------------------------------------ -/
/- Claim theorems                                                      -/
/- ------------------------------------------------------------------ -/

/-- C10: when the handler's return value is neither an object nor a pair of
two objects, `Actor::run` leaves the actor unchanged, synthesizes no reply and
returns success; and a reply is synthesized only when the result decodes as a
pair of objects and the inbound message carried a `from`. -/
theorem c10_run_decode :
    (∀ (oracle : VmOracle) (a : Actor) (m : Message) (r : RValue),
      oracle.call a.script a.state m.payload = .ok r →
      decodePairObj r = none → decodeObj r = none →
      Actor.run oracle a m = (.ok none, a)) ∧
    (∀ (oracle : VmOracle) (a : Actor) (m : Message) (reply : Message)
       (a' : Actor),
      Actor.run oracle a m = (.ok (some reply), a') →
      ∃ (r : RValue) (s resp : Json) (f : String),
        oracle.call a.script a.state m.payload = .ok r ∧
        decodePairObj r = some (s, resp) ∧ m.from_ = some f ∧
        a' = { a with state := s } ∧ reply = ⟨some m.to_, f, resp⟩) := by
  constructor
  · intro oracle a m r hc hpd hod
    simp [Actor.run, hc, hpd, hod]
  · intro oracle a m reply a' h
    cases hc : oracle.call a.script a.state m.payload with
    | error e => simp [Actor.run, hc] at h
    | ok r =>
      cases hpd : decodePairObj r with
      | some p =>
        obtain ⟨s, resp⟩ := p
        cases hm : m.from_ with
        | some f =>
          simp only [Actor.run, hc, hpd, hm, Prod.mk.injEq, Except.ok.injEq,
            Option.some.injEq] at h
          exact ⟨r, s, resp, f, rfl, hpd, rfl, h.2.symm, h.1.symm⟩
        | none => simp [Actor.run, hc, hpd, hm] at h
      | none =>
        cases hod : decodeObj r with
        | some s => simp [Actor.run, hc, hpd, hod] at h
        | none => simp [Actor.run, hc, hpd, hod] at h

/-- C10 witness: a handler returning a bare scalar at a concrete actor and
message leaves the actor unchanged and produces no reply. -/
theorem c10_witness :
    oracleOther.call actorA.script actorA.state msgA.payload = .ok .other ∧
    decodePairObj .other = none ∧ decodeObj .other = none ∧
    Actor.run oracleOther actorA msgA = (.ok none, actorA) :=
  ⟨rfl, rfl, rfl, c10_run_decode.1 oracleOther actorA msgA .other rfl rfl rfl⟩

/-- C3 (amended): a pause request whose id names no live actor sets the
system-wide paused flag to `true` (an unpause request clears it); the actor
table, and with it every per-actor paused flag, is unchanged, and the reply is
`Done` in both cases. -/
theorem c3_unknown_id_flips_system (sys : System) (i : String)
    (h : lookupFirst i sys.actors = none) :
    handlePause sys (some i) = ({ sys with paused := true }, .done) ∧
    handleUnpause sys (some i) = ({ sys with paused := false }, .done) := by
  constructor <;> simp [handlePause, handleUnpause, h]

/-- C3 counterexample: pausing the unknown id `ghost` in a running system
flips the system-wide flag from `false` to `true` — the operation is not a
no-op as claimed (the actor table itself is untouched). -/
theorem c3_counterexample :
    lookupFirst "ghost" sysA.actors = none ∧
    sysA.paused = false ∧
    (handlePause sysA (some "ghost")).1.paused = true ∧
    (handlePause sysA (some "ghost")).1.actors = sysA.actors :=
  ⟨rfl, rfl, rfl, rfl⟩

/-- C3 witness: the amended statement applied at the concrete system. -/
theorem c3_witness :
    lookupFirst "ghost" sysA.actors = none ∧
    (handlePause sysA (some "ghost") = ({ sysA with paused := true }, .done) ∧
     handleUnpause sysA (some "ghost") = ({ sysA with paused := false }, .done)) :=
  ⟨rfl, c3_unknown_id_flips_system sysA "ghost" rfl⟩

/-- C4 (amended): the server-side `SetTick` handler accepts every value —
including values below 100 — replying `Done` and storing the value verbatim;
the 100 ms minimum exists only in the CLI's clap range check, which refuses
the argument before any request is sent; `ResetTick` restores the default,
which is 2000 ms. -/
theorem c4_set_tick_server_accepts :
    (∀ (cfg : Config) (t : Nat), handleSetTick cfg t = (⟨t⟩, Response.done)) ∧
    (∀ t : Nat, tickSetInRange t = true ↔ (100 ≤ t ∧ t < 2 ^ 64)) ∧
    handleResetTick ⟨50⟩ = (⟨DEFAULT_TICK⟩, Response.done) ∧
    DEFAULT_TICK = 2000 := by
  refine ⟨fun _ _ => rfl, fun t => ?_, rfl, rfl⟩
  simp [tickSetInRange]

/-- C4 counterexample: a set-tick request with value 50 (below the documented
minimum of 100) is answered `Done` by the server, and the tick period is
updated to 50 — not `Failed` with the period unchanged. -/
theorem c4_counterexample :
    (handleSetTick ⟨2000⟩ 50).2 = Response.done ∧
    (handleSetTick ⟨2000⟩ 50).1.tick = 50 ∧
    (50 : Nat) < 100 :=
  ⟨rfl, rfl, by decide⟩

/-- C6: on a walk whose second element does not exist, the returned QIDs are
exactly the resolved prefix, but the new fid does NOT remain at its starting
path `/` — it is left at the unresolved path `/actors/nope`, contradicting
the specification and the code's own comment. -/
theorem c6_partial_walk_moves_fid :
    rwalk sdTriv hashC6 sysA rootFid ["actors", "nope"]
      = (⟨"/actors/nope", true, none⟩, [⟨true, 1, hashC6 "/actors"⟩]) ∧
    (rwalk sdTriv hashC6 sysA rootFid ["actors", "nope"]).1.path ≠ rootFid.path := by
  refine ⟨rfl, ?_⟩
  have h1 : (rwalk sdTriv hashC6 sysA rootFid ["actors", "nope"]).1.path
      = "/actors/nope" := rfl
  rw [h1]
  decide

/-- C5 (amended): committing a buffered write to a live actor's mailbox file
fails with `EINVAL` only when the bytes are not UTF-8; UTF-8 bytes that do not
parse as a JSON array of Messages make the commit report success while leaving
the mailbox unchanged; parse success replaces the mailbox. -/
theorem c5_mailbox_commit :
    ∀ (sd : Serde) (sys : System) (path : String) (data : List Nat)
      (aid : String) (rest : List String) (a : Actor),
      strStartsWith path actorsPre = true →
      strSplitSlash (trimActors path) = aid :: "mailbox" :: rest →
      lookupFirst aid sys.actors = some a →
      (sd.utf8 data = none → write_file sd sys path data = (.error .einval, sys)) ∧
      (∀ content, sd.utf8 data = some content → sd.msgListParse content = none →
        write_file sd sys path data = (.ok data.length, sys)) ∧
      (∀ content ms, sd.utf8 data = some content →
        sd.msgListParse content = some ms →
        write_file sd sys path data =
          (.ok data.length,
           { sys with actors := insertActor aid { a with mailbox := ms } sys.actors })) := by
  intro sd sys path data aid rest a hsw hsp hla
  refine ⟨?_, ?_, ?_⟩
  · intro hu; simp [write_file, hu]
  · intro content hu hmp
    simp [write_file, hu, hsw, hsp, hla, hmp]
  · intro content ms hu hmp
    simp [write_file, hu, hsw, hsp, hla, hmp]

/-- C5 counterexample: byte 98 decodes to the string `b`, which does not parse
as a JSON array of Messages, yet the commit to a live actor's mailbox returns
success (count 1) with the system unchanged — not `EINVAL`. -/
theorem c5_counterexample :
    sdC5.utf8 [98] = some "b" ∧
    sdC5.msgListParse "b" = none ∧
    write_file sdC5 sysMb "/actors/a/mailbox" [98] = (.ok 1, sysMb) :=
  ⟨rfl, rfl, rfl⟩

/-- C5 witness: the amended statement applied at concrete inputs, exercising
both the parse-failure case and the parse-success (replacement) case. -/
theorem c5_witness :
    strStartsWith "/actors/a/mailbox" actorsPre = true ∧
    strSplitSlash (trimActors "/actors/a/mailbox") = ["a", "mailbox"] ∧
    lookupFirst "a" sysMb.actors = some actorMb ∧
    write_file sdC5 sysMb "/actors/a/mailbox" [98] = (.ok 1, sysMb) ∧
    write_file sdC5 sysMb "/actors/a/mailbox" [91, 93]
      = (.ok 2,
         { sysMb with actors := insertActor "a" { actorMb with mailbox := [] } sysMb.actors }) :=
  ⟨rfl, rfl, rfl,
   (c5_mailbox_commit sdC5 sysMb "/actors/a/mailbox" [98] "a" [] actorMb rfl rfl rfl).2.1 "b" rfl rfl,
   (c5_mailbox_commit sdC5 sysMb "/actors/a/mailbox" [91, 93] "a" [] actorMb rfl rfl rfl).2.2 "[]" [] rfl rfl⟩

/-- C7 (amended): a committed buffered write naming a non-live actor fails
with `ENOENT` and leaves the system unchanged whenever the buffer is valid
UTF-8 (a non-UTF-8 buffer fails earlier with `EINVAL`, also leaving the
system unchanged); in both commit paths the buffer is discarded, and `clunk`
commits exactly like `fsync` while swallowing the error. -/
theorem c7_unknown_actor_commit :
    (∀ (sd : Serde) (sys : System) (path : String) (data : List Nat)
       (content : String) (aid file : String) (rest : List String)
       (fid : FidState),
      sd.utf8 data = some content →
      strStartsWith path actorsPre = true →
      strSplitSlash (trimActors path) = aid :: file :: rest →
      lookupFirst aid sys.actors = none →
      write_file sd sys path data = (.error .enoent, sys) ∧
      (fid.path = path → fid.writeBuffer = some data →
        rclunk sd sys fid = (sys, { fid with writeBuffer := none }) ∧
        rfsync sd sys fid = (some .enoent, sys, { fid with writeBuffer := none }))) ∧
    (∀ (sd : Serde) (sys : System) (path : String) (data : List Nat),
      sd.utf8 data = none → write_file sd sys path data = (.error .einval, sys)) := by
  constructor
  · intro sd sys path data content aid file rest fid hu hsw hsp hla
    have hw : write_file sd sys path data = (.error .enoent, sys) := by
      simp [write_file, hu, hsw, hsp, hla]
    refine ⟨hw, ?_⟩
    intro hp hb
    constructor
    · simp [rclunk, hb, hp, hw]
    · simp [rfsync, hb, hp, hw]
  · intro sd sys path data hu
    simp [write_file, hu]

/-- C7 counterexample: a buffer containing the single byte 255 (invalid
UTF-8) committed to a path naming the non-live actor `ghost` fails with
`EINVAL`, not `ENOENT` — the UTF-8 check runs before the actor lookup. -/
theorem c7_counterexample :
    sdC7.utf8 [255] = none ∧
    lookupFirst "ghost" sysA.actors = none ∧
    write_file sdC7 sysA "/actors/ghost/state" [255] = (.error .einval, sysA) ∧
    Errno.einval ≠ Errno.enoent :=
  ⟨rfl, rfl, rfl, by decide⟩

/-- C7 witness: the amended statement at a concrete commit to
`/actors/ghost/state` for a system without actor `ghost`, at both commit
points. -/
theorem c7_witness :
    sdC5.utf8 [98] = some "b" ∧
    strStartsWith "/actors/ghost/state" actorsPre = true ∧
    strSplitSlash (trimActors "/actors/ghost/state") = ["ghost", "state"] ∧
    lookupFirst "ghost" sysA.actors = none ∧
    write_file sdC5 sysA "/actors/ghost/state" [98] = (.error .enoent, sysA) ∧
    rclunk sdC5 sysA ⟨"/actors/ghost/state", false, some [98]⟩
      = (sysA, ⟨"/actors/ghost/state", false, none⟩) ∧
    rfsync sdC5 sysA ⟨"/actors/ghost/state", false, some [98]⟩
      = (some .enoent, sysA, ⟨"/actors/ghost/state", false, none⟩) := by
  obtain ⟨h1, h2⟩ := c7_unknown_actor_commit.1 sdC5 sysA "/actors/ghost/state" [98]
    "b" "ghost" "state" [] ⟨"/actors/ghost/state", false, some [98]⟩ rfl rfl rfl rfl
  exact ⟨rfl, rfl, rfl, rfl, h1, (h2 rfl rfl).1, (h2 rfl rfl).2⟩

/-- C8: a successful write-and-commit to a live actor's state file parses the
buffer as JSON and replaces the state with the parsed value, so a subsequent
read returns exactly the pretty-printing of that value; a failed parse fails
with `EINVAL` and leaves the state (indeed the whole system) untouched —
parse first, assign second. -/
theorem c8_state_roundtrip :
    ∀ (sd : Serde) (sys : System) (path : String) (data : List Nat)
      (content : String) (aid : String) (rest : List String) (a : Actor),
      strStartsWith path actorsPre = true →
      strSplitSlash (trimActors path) = aid :: "state" :: rest →
      lookupFirst aid sys.actors = some a →
      sd.utf8 data = some content →
      (∀ v, sd.jsonParse content = some v →
        write_file sd sys path data =
          (.ok data.length,
           { sys with actors := insertActor aid { a with state := v } sys.actors }) ∧
        lookupFirst aid (insertActor aid { a with state := v } sys.actors)
          = some { a with state := v } ∧
        read_file sd
            { sys with actors := insertActor aid { a with state := v } sys.actors }
            path
          = sd.strBytes (sd.prettyJson v)) ∧
      (sd.jsonParse content = none →
        write_file sd sys path data = (.error .einval, sys)) := by
  intro sd sys path data content aid rest a hsw hsp hla hu
  constructor
  · intro v hjp
    refine ⟨?_, lookupFirst_insertActor_self aid { a with state := v } sys.actors, ?_⟩
    · simp [write_file, hu, hsw, hsp, hla, hjp]
    · have hne : ¬path = "/spawn_queue" := by
        intro hpe
        rw [hpe] at hsw
        exact absurd hsw (by decide)
      simp [read_file, hne, hsw, hsp, lookupFirst_insertActor_self]
  · intro hjp
    simp [write_file, hu, hsw, hsp, hla, hjp]

/-- C8 witness: writing the four bytes of `null` to `/actors/a/state`
replaces the state with JSON null and reading the file back returns its
pretty-printing; a parse failure at the same path is rejected with the system
unchanged. -/
theorem c8_witness :
    strStartsWith "/actors/a/state" actorsPre = true ∧
    strSplitSlash (trimActors "/actors/a/state") = ["a", "state"] ∧
    lookupFirst "a" sysA.actors = some actorA ∧
    sdC8.utf8 [110, 117, 108, 108] = some "null" ∧
    sdC8.jsonParse "null" = some Json.null ∧
    (write_file sdC8 sysA "/actors/a/state" [110, 117, 108, 108] =
        (.ok 4,
         { sysA with actors := insertActor "a" { actorA with state := Json.null } sysA.actors }) ∧
      lookupFirst "a" (insertActor "a" { actorA with state := Json.null } sysA.actors)
        = some { actorA with state := Json.null } ∧
      read_file sdC8
          { sysA with actors := insertActor "a" { actorA with state := Json.null } sysA.actors }
          "/actors/a/state"
        = sdC8.strBytes (sdC8.prettyJson Json.null)) :=
  ⟨rfl, rfl, rfl, rfl, rfl,
   (c8_state_roundtrip sdC8 sysA "/actors/a/state" [110, 117, 108, 108] "null"
      "a" [] actorA rfl rfl rfl rfl).1 Json.null rfl⟩

/-- Indexing a constant-zero list yields zero (also off the end). -/
theorem getD_map_zero :
    ∀ (tl : List (String × Actor)) (i : Nat),
      (tl.map fun _ => (0 : Nat)).getD i 0 = 0 := by
  intro tl
  induction tl with
  | nil => intro i; simp [List.getD]
  | cons hd tl ih =>
    intro i
    cases i with
    | zero => rfl
    | succ n => simp only [List.map_cons, List.getD_cons_succ]; exact ih n

/-- C1 (amended): a handler error during a tick does not kill the failing
actor and leaves its state untouched (only the consumed message, and at most
the head of its send queue, are gone) — but the tick does not proceed: it
returns the error, the actors before the failing one in iteration order have
been processed, the actors after it are untouched, and none of the collected
messages is routed (mailboxes only shrink on such a tick). -/
theorem c1_tick_error_aborts (oracle : VmOracle) (sys : System) (e : EosError)
    (sys' : System) (hp : sys.paused = false) (hq : sys.spawn_queue = [])
    (h : System.tick oracle sys = (some e, sys')) :
    ∃ pre idp ap suf,
      sys.actors = pre ++ (idp, ap) :: suf ∧
      (∀ q ∈ pre, (stepActor oracle q.2).err = none) ∧
      (stepActor oracle ap).err = some e ∧
      sys' = ⟨[], pre.map (fun q => (q.1, (stepActor oracle q.2).actor))
                ++ (idp, (stepActor oracle ap).actor) :: suf, false⟩ ∧
      (stepActor oracle ap).actor.state = ap.state ∧
      (stepActor oracle ap).actor.mailbox = ap.mailbox.drop 1 ∧
      keysOf sys'.actors = keysOf sys.actors := by
  simp only [System.tick, hp, Bool.false_eq_true, if_false, hq,
    List.reverse_nil, drainLoop] at h
  rcases ht : tickActors oracle sys.actors with ⟨r, l2, ms, cs⟩
  rw [ht] at h
  cases r with
  | none => simp at h
  | some e1 =>
    simp only [Prod.mk.injEq, Option.some.injEq] at h
    obtain ⟨he, hs'⟩ := h
    subst he
    obtain ⟨l1, p, l3, hdec, hpre, herr, hres⟩ :=
      tickActors_err oracle sys.actors l2 e1 ms cs ht
    obtain ⟨idp, ap⟩ := p
    obtain ⟨hpf, hstate, hmail, _⟩ := stepActor_err_facts oracle ap e1 herr
    have hkeys1 : List.map Prod.fst
        (l1.map (fun q => (q.1, (stepActor oracle q.2).actor))) = List.map Prod.fst l1 := by
      rw [List.map_map]
      exact List.map_congr_left fun q _ => rfl
    refine ⟨l1, idp, ap, l3, hdec, hpre, herr, ?_, hstate, hmail, ?_⟩
    · rw [← hs', hres]
    · rw [← hs']
      simp only [hres, hdec, keysOf, List.map_append, List.map_cons, hkeys1]

/-- C1 counterexample: for an actor whose handler fails, `System::tick`
returns the error instead of catching it — the tick is not error-free as
claimed. -/
theorem c1_counterexample :
    System.tick oracleFail sysC1
      = (some (EosError.vmError "boom"), ⟨[], [("a", actorC1')], false⟩) ∧
    (System.tick oracleFail sysC1).1 ≠ none := by
  have h1 : System.tick oracleFail sysC1
      = (some (EosError.vmError "boom"), ⟨[], [("a", actorC1')], false⟩) := rfl
  refine ⟨h1, ?_⟩
  rw [h1]
  simp

/-- C1 witness: the amended statement applied to the one-actor system whose
handler fails. -/
theorem c1_witness :
    sysC1.paused = false ∧ sysC1.spawn_queue = [] ∧
    System.tick oracleFail sysC1
      = (some (EosError.vmError "boom"), ⟨[], [("a", actorC1')], false⟩) ∧
    (∃ pre idp ap suf,
      sysC1.actors = pre ++ (idp, ap) :: suf ∧
      (∀ q ∈ pre, (stepActor oracleFail q.2).err = none) ∧
      (stepActor oracleFail ap).err = some (EosError.vmError "boom") ∧
      (⟨[], [("a", actorC1')], false⟩ : System)
        = ⟨[], pre.map (fun q => (q.1, (stepActor oracleFail q.2).actor))
                ++ (idp, (stepActor oracleFail ap).actor) :: suf, false⟩ ∧
      (stepActor oracleFail ap).actor.state = ap.state ∧
      (stepActor oracleFail ap).actor.mailbox = ap.mailbox.drop 1 ∧
      keysOf (⟨[], [("a", actorC1')], false⟩ : System).actors = keysOf sysC1.actors) :=
  ⟨rfl, rfl, rfl,
   c1_tick_error_aborts oracleFail sysC1 (EosError.vmError "boom")
     ⟨[], [("a", actorC1')], false⟩ rfl rfl rfl⟩

/-- C2 (amended): on a successful tick of a running system (distinct keys, no
pending spawns), each actor loses exactly the head of its send queue when it
is not paused — elements beyond the head, and elements pushed during this
tick's handlers, survive the tick — and its mailbox afterwards is its stepped
mailbox plus, in order, exactly the collected messages addressed to it (a
collected message whose recipient id is not a key of the table lands in no
mailbox: it is dropped). -/
theorem c2_send_queue_head_only (oracle : VmOracle) (sys sys' : System)
    (hp : sys.paused = false) (hq : sys.spawn_queue = [])
    (hnd : (keysOf sys.actors).Nodup)
    (h : System.tick oracle sys = (none, sys')) :
    ∀ (id : String) (a : Actor), lookupFirst id sys.actors = some a →
      lookupFirst id sys'.actors
        = some { (stepActor oracle a).actor with
                 mailbox := (stepActor oracle a).actor.mailbox
                   ++ msgsTo id (tickActors oracle sys.actors).2.2.1 } ∧
      (stepActor oracle a).actor.send_queue
        = (if a.paused then a.send_queue else a.send_queue.drop 1) := by
  intro id a hla
  refine ⟨?_, (stepActor_fields oracle a).2.2.2.1⟩
  simp only [System.tick, hp, Bool.false_eq_true, if_false, hq,
    List.reverse_nil, drainLoop] at h
  rcases ht : tickActors oracle sys.actors with ⟨r, l2, ms, cs⟩
  rw [ht] at h
  cases r with
  | some e1 => simp at h
  | none =>
    simp only [Prod.mk.injEq] at h
    obtain ⟨-, hs'⟩ := h
    obtain ⟨l2eq, -, -⟩ := tickActors_ok oracle sys.actors l2 ms cs ht
    have hnd2 : (keysOf l2).Nodup := by
      have hk := tickActors_keys oracle sys.actors
      rw [ht] at hk
      have : keysOf l2 = keysOf sys.actors := by simpa using hk
      rw [this]; exact hnd
    have hl2 : lookupFirst id l2 = some ((stepActor oracle a).actor) := by
      rw [l2eq]
      have hmk := lookupFirst_map_keyed (fun _ b => (stepActor oracle b).actor)
        sys.actors id
      rw [hmk, hla]
      rfl
    have hfinal : lookupFirst id (routeMsgs l2 ms)
        = some { (stepActor oracle a).actor with
                 mailbox := (stepActor oracle a).actor.mailbox ++ msgsTo id ms } := by
      rw [routeMsgs_map ms l2 hnd2]
      have hmk := lookupFirst_map_keyed
        (fun i b => { b with mailbox := b.mailbox ++ msgsTo i ms }) l2 id
      rw [hmk, hl2]
      rfl
    rw [← hs']
    exact hfinal

/-- C2 counterexample: an actor whose send queue holds two handler-produced
messages keeps the second one after the tick — send-queue items can survive a
tick, only the head is routed. -/
theorem c2_counterexample :
    actorC2.send_queue = [msgAA, msgAA] ∧
    System.tick oracleOther sysC2 = (none, sysC2') ∧
    lookupFirst "a" sysC2'.actors
      = some ⟨"a", [msgAA], [msgAA], "scr", Json.null, false⟩ ∧
    ([msgAA] : List Message) ≠ [] := by
  refine ⟨rfl, rfl, rfl, by simp⟩

/-- C2 witness: the amended statement applied to the concrete two-element
send queue. -/
theorem c2_witness :
    sysC2.paused = false ∧ sysC2.spawn_queue = [] ∧
    (keysOf sysC2.actors).Nodup ∧
    System.tick oracleOther sysC2 = (none, sysC2') ∧
    lookupFirst "a" sysC2.actors = some actorC2 ∧
    (lookupFirst "a" sysC2'.actors
        = some { (stepActor oracleOther actorC2).actor with
                 mailbox := (stepActor oracleOther actorC2).actor.mailbox
                   ++ msgsTo "a" (tickActors oracleOther sysC2.actors).2.2.1 } ∧
     (stepActor oracleOther actorC2).actor.send_queue
        = (if actorC2.paused then actorC2.send_queue
           else actorC2.send_queue.drop 1)) :=
  ⟨rfl, rfl, by decide, rfl, rfl,
   c2_send_queue_head_only oracleOther sysC2 sysC2' rfl rfl (by decide) rfl
     "a" actorC2 rfl⟩

/-- C9: during any tick of a table with distinct keys, each actor's mailbox
loses at most its head (everything else that changes is appended by routing),
its send queue loses at most its head, and a paused actor keeps its state and
send queue and has nothing popped from its mailbox; moreover the handler
(`actor.run`) is invoked at most once per actor per tick, and never for a
paused actor. -/
theorem c9_at_most_once :
    (∀ (oracle : VmOracle) (sys : System) (r : Option EosError) (sys' : System)
       (id : String) (a : Actor),
      (keysOf sys.actors).Nodup →
      System.tick oracle sys = (r, sys') →
      lookupFirst id sys.actors = some a →
      ∃ a' pushed, lookupFirst id sys'.actors = some a' ∧
        (a'.mailbox = a.mailbox ++ pushed ∨ a'.mailbox = a.mailbox.drop 1 ++ pushed) ∧
        (a'.send_queue = a.send_queue ∨ a'.send_queue = a.send_queue.drop 1) ∧
        (a.paused = true →
          a'.mailbox = a.mailbox ++ pushed ∧ a'.send_queue = a.send_queue ∧
          a'.state = a.state)) ∧
    (∀ (oracle : VmOracle) (l : List (String × Actor)) (i : Nat)
       (h : i < l.length),
      (tickActors oracle l).2.2.2.getD i 0 ≤ 1 ∧
      ((l.get ⟨i, h⟩).2.paused = true →
        (tickActors oracle l).2.2.2.getD i 0 = 0)) := by
  constructor
  · intro oracle sys r sys' id a hnd h hla
    cases hsp : sys.paused with
    | true =>
      simp only [System.tick, hsp, if_true] at h
      obtain ⟨-, hs'⟩ := Prod.mk.injEq .. |>.mp h
      refine ⟨a, [], by rw [← hs']; exact hla, Or.inl (by simp), Or.inl rfl,
        fun _ => ⟨by simp, rfl, rfl⟩⟩
    | false =>
      simp only [System.tick, hsp, Bool.false_eq_true, if_false] at h
      rcases hd : drainLoop oracle sys.spawn_queue.reverse sys.actors
        with ⟨rd, q1, actors1⟩
      rw [hd] at h
      obtain ⟨news, happ, hndp⟩ := drainLoop_spec oracle sys.spawn_queue.reverse sys.actors
      rw [hd] at happ hndp
      have happ' : actors1 = sys.actors ++ news := by simpa using happ
      have hnd1 : (keysOf actors1).Nodup := by simpa using hndp hnd
      have hla1 : lookupFirst id actors1 = some a := by
        rw [happ']
        exact lookupFirst_append_left _ _ _ _ hla
      cases rd with
      | some e =>
        dsimp only at h
        obtain ⟨-, hs'⟩ := Prod.mk.injEq .. |>.mp h
        refine ⟨a, [], by rw [← hs']; exact hla1, Or.inl (by simp), Or.inl rfl,
          fun _ => ⟨by simp, rfl, rfl⟩⟩
      | none =>
        dsimp only at h
        rcases ht : tickActors oracle actors1 with ⟨r2, l2, ms2, cs2⟩
        rw [ht] at h
        obtain ⟨a1, ha1, hcase⟩ := tickActors_lookup oracle actors1 id a hla1
        rw [ht] at ha1
        have ha1' : lookupFirst id l2 = some a1 := by simpa using ha1
        have hmb : a1.mailbox = a.mailbox ∨ a1.mailbox = a.mailbox.drop 1 := by
          rcases hcase with hc | hc
          · rw [hc]; exact (stepActor_fields oracle a).2.2.2.2.1
          · rw [hc]; exact Or.inl rfl
        have hsq : a1.send_queue = a.send_queue ∨
            a1.send_queue = a.send_queue.drop 1 := by
          rcases hcase with hc | hc
          · rw [hc, (stepActor_fields oracle a).2.2.2.1]
            by_cases hpa : a.paused = true
            · simp [hpa]
            · simp only [hpa, if_false]
              exact Or.inr rfl
          · rw [hc]; exact Or.inl rfl
        have hpausedid : a.paused = true → a1 = a := by
          intro hpa
          rcases hcase with hc | hc
          · rw [hc, stepActor_paused oracle a hpa]
          · exact hc
        cases r2 with
        | some e =>
          dsimp only at h
          obtain ⟨-, hs'⟩ := Prod.mk.injEq .. |>.mp h
          refine ⟨a1, [], by rw [← hs']; exact ha1', ?_, hsq, ?_⟩
          · rcases hmb with hc | hc
            · exact Or.inl (by simp [hc])
            · exact Or.inr (by simp [hc])
          · intro hpa
            have := hpausedid hpa
            subst this
            exact ⟨by simp, rfl, rfl⟩
        | none =>
          dsimp only at h
          obtain ⟨-, hs'⟩ := Prod.mk.injEq .. |>.mp h
          have hnd2 : (keysOf l2).Nodup := by
            have hk := tickActors_keys oracle actors1
            rw [ht] at hk
            have : keysOf l2 = keysOf actors1 := by simpa using hk
            rw [this]; exact hnd1
          have hfinal : lookupFirst id (routeMsgs l2 ms2)
              = some { a1 with mailbox := a1.mailbox ++ msgsTo id ms2 } := by
            rw [routeMsgs_map ms2 l2 hnd2]
            have hmk := lookupFirst_map_keyed
              (fun i b => { b with mailbox := b.mailbox ++ msgsTo i ms2 }) l2 id
            rw [hmk, ha1']
            rfl
          refine ⟨{ a1 with mailbox := a1.mailbox ++ msgsTo id ms2 },
            msgsTo id ms2, by rw [← hs']; exact hfinal, ?_, hsq, ?_⟩
          · rcases hmb with hc | hc
            · exact Or.inl (by simp [hc])
            · exact Or.inr (by simp [hc])
          · intro hpa
            have := hpausedid hpa
            subst this
            exact ⟨by simp, rfl, rfl⟩
  · intro oracle l
    induction l with
    | nil => intro i h; exact absurd h (by simp)
    | cons hd tl ih =>
      obtain ⟨k, b⟩ := hd
      intro i h
      rcases hsd : stepActor oracle b with ⟨err, b1, ms1, c⟩
      have hc_le : c ≤ 1 := by
        have hcl := (stepActor_fields oracle b).2.2.2.2.2
        rw [hsd] at hcl
        exact hcl
      have hc_p : b.paused = true → c = 0 := by
        intro hpb
        have hcz := stepActor_calls_paused oracle b hpb
        rw [hsd] at hcz
        exact hcz
      cases err with
      | some e =>
        cases i with
        | zero =>
          refine ⟨?_, ?_⟩
          · simpa [tickActors, hsd] using hc_le
          · intro hpb
            simp only [List.get] at hpb
            simpa [tickActors, hsd] using hc_p hpb
        | succ i' =>
          refine ⟨?_, ?_⟩
          · simp [tickActors, hsd, List.getD_cons_succ, getD_map_zero]
          · intro _
            simp [tickActors, hsd, List.getD_cons_succ, getD_map_zero]
      | none =>
        rcases ho : tickActors oracle tl with ⟨r2, l22, ms2, cs2⟩
        cases i with
        | zero =>
          refine ⟨?_, ?_⟩
          · simpa [tickActors, hsd, ho] using hc_le
          · intro hpb
            simp only [List.get] at hpb
            simpa [tickActors, hsd, ho] using hc_p hpb
        | succ i' =>
          have h' : i' < tl.length := by simpa using Nat.lt_of_succ_lt_succ h
          obtain ⟨ih1, ih2⟩ := ih i' h'
          rw [ho] at ih1 ih2
          refine ⟨?_, ?_⟩
          · simpa [tickActors, hsd, ho, List.getD_cons_succ] using ih1
          · intro hpb
            simp only [List.get] at hpb
            simpa [tickActors, hsd, ho, List.getD_cons_succ] using ih2 hpb

/-- C9 witness: the main statement applied to the concrete system (a tick
that succeeds), and the at-most-once invocation count at index 0 of its
table. -/
theorem c9_witness :
    (keysOf sysC2.actors).Nodup ∧
    System.tick oracleOther sysC2 = (none, sysC2') ∧
    lookupFirst "a" sysC2.actors = some actorC2 ∧
    (∃ a' pushed, lookupFirst "a" sysC2'.actors = some a' ∧
      (a'.mailbox = actorC2.mailbox ++ pushed ∨
        a'.mailbox = actorC2.mailbox.drop 1 ++ pushed) ∧
      (a'.send_queue = actorC2.send_queue ∨
        a'.send_queue = actorC2.send_queue.drop 1) ∧
      (actorC2.paused = true →
        a'.mailbox = actorC2.mailbox ++ pushed ∧
        a'.send_queue = actorC2.send_queue ∧ a'.state = actorC2.state)) ∧
    (0 < sysC2.actors.length ∧
      (tickActors oracleOther sysC2.actors).2.2.2.getD 0 0 ≤ 1 ∧
      (actorC2.paused = true →
        (tickActors oracleOther sysC2.actors).2.2.2.getD 0 0 = 0)) :=
  ⟨by decide, rfl, rfl,
   c9_at_most_once.1 oracleOther sysC2 none sysC2' "a" actorC2 (by decide) rfl rfl,
   by decide,
   (c9_at_most_once.2 oracleOther sysC2.actors 0 (by decide)).1,
   (c9_at_most_once.2 oracleOther sysC2.actors 0 (by decide)).2⟩

end Eos
